import Mathlib

/-!
Formal model of the loan installment engine of the payroll application,
translated from `src/payroll-app/app/(protected)/loans/actions.ts` and the
database schema (`loans`, `loan_installments` tables).

Monetary values are modelled as exact rationals; the JavaScript idiom
`parseFloat(x.toFixed(2))` is modelled by `toFixed2`, rounding to two decimal
places with ties away from zero towards plus infinity (the `toFixed` tie rule:
of the two nearest candidates the larger is chosen).  Timestamps are modelled
as abstract ticks (`Nat`); database-generated row ids are modelled as `Nat`
parameters supplied by the environment.
-/

namespace Payroll

/-- Model of `parseFloat(x.toFixed(2))`: round to two decimal places,
ties to the larger value (`Mathlib.round` is exactly `⌊x + 1/2⌋`). -/
def toFixed2 (x : ℚ) : ℚ := (round (100 * x) : ℚ) / 100

/-- A rational is a whole number of cents (two decimal places). -/
def IsCent (x : ℚ) : Prop := ∃ k : ℤ, x = (k : ℚ) / 100

theorem isCent_toFixed2 (x : ℚ) : IsCent (toFixed2 x) :=
  ⟨round (100 * x), rfl⟩

theorem IsCent.toFixed2_eq {x : ℚ} (h : IsCent x) : toFixed2 x = x := by
  obtain ⟨k, rfl⟩ := h
  unfold toFixed2
  rw [show (100 : ℚ) * ((k : ℚ) / 100) = (k : ℚ) by ring, round_intCast]

theorem IsCent.sub {x y : ℚ} (hx : IsCent x) (hy : IsCent y) : IsCent (x - y) := by
  obtain ⟨k, rfl⟩ := hx
  obtain ⟨m, rfl⟩ := hy
  exact ⟨k - m, by push_cast; ring⟩

theorem IsCent.mul_int {x : ℚ} (hx : IsCent x) (m : ℤ) : IsCent (x * m) := by
  obtain ⟨k, rfl⟩ := hx
  exact ⟨k * m, by push_cast; ring⟩

theorem toFixed2_nonneg {x : ℚ} (hx : 0 ≤ x) : 0 ≤ toFixed2 x := by
  unfold toFixed2
  have h1 : (0 : ℤ) ≤ round (100 * x) := by
    rw [round_eq]
    exact Int.le_floor.mpr (by push_cast; linarith)
  have h2 : (0 : ℚ) ≤ (round (100 * x) : ℚ) := by exact_mod_cast h1
  linarith

/-- Loan status column (`loans.status`, CHECK active | paid | cancelled). -/
inductive LoanStatus
  | active
  | paid
  | cancelled
deriving DecidableEq

/-- Installment status column (`loan_installments.status`, CHECK pending | paid). -/
inductive InstStatus
  | pending
  | paid
deriving DecidableEq

/-- Payment source column (`loan_installments.payment_source`). -/
inductive PaymentSource
  | salary
  | kpi_bonus
  | end_of_contract_bonus
  | manual
deriving DecidableEq

/-- The `validSources` check of `markInstallmentPaid` together with the cast
to the enumerated type: a string outside the list yields `none`. -/
def PaymentSource.ofString (s : String) : Option PaymentSource :=
  if s = "salary" then some .salary
  else if s = "kpi_bonus" then some .kpi_bonus
  else if s = "end_of_contract_bonus" then some .end_of_contract_bonus
  else if s = "manual" then some .manual
  else none

/-- A calendar date as produced by the formatting code
`[getFullYear(), getMonth()+1, getDate()].join('-')`: year, 1-based month, day. -/
structure CalDate where
  year : Int
  month : Nat
  day : Nat
deriving DecidableEq

/-- Row of the `loans` table (columns used by the loan actions). -/
structure Loan where
  id : Nat
  employee_id : String
  total_amount : ℚ
  currency : String
  number_of_installments : Nat
  monthly_deduction : ℚ
  start_date : CalDate
  status : LoanStatus
  notes : Option String
  deduction_method : String
  contract_url : Option String
  contract_file_path : Option String
  created_at : Nat
  updated_at : Nat
deriving DecidableEq

/-- Row of the `loan_installments` table (columns used by the loan actions). -/
structure LoanInstallment where
  id : Nat
  loan_id : Nat
  installment_number : Nat
  deduction_date : CalDate
  amount : ℚ
  status : InstStatus
  paid_at : Option Nat
  payment_source : Option PaymentSource
deriving DecidableEq

/-- The persistence store: the two tables the loan actions read and write. -/
structure Store where
  loans : List Loan
  installments : List LoanInstallment
deriving DecidableEq

/-- Errors surfaced by the loan actions (each constructor corresponds to one
of the returned error strings; `customSumMismatch` carries the actual and
expected sums that the source interpolates into its message). -/
inductive LoanError
  | permission
  | missingFields
  | invalidTotal
  | invalidCount
  | invalidAlreadyPaid
  | alreadyPaidExceeds
  | invalidDeductionMethod
  | customCountMismatch
  | customInvalidAmount
  | customSumMismatch (actual expected : ℚ)
  | invalidPaymentSource
  | persistence
  | storage
deriving DecidableEq

/-- Equal mode of `createLoan` (actions.ts lines 140-147): every installment
gets `regular = toFixed2 (total / count)` except the last, which gets
`toFixed2 (total - regular * (count - 1))`, absorbing the rounding remainder. -/
def equalAmounts (total : ℚ) (count : ℕ) : List ℚ :=
  let regularAmount := toFixed2 (total / count)
  let lastAmount := toFixed2 (total - regularAmount * ((count : ℚ) - 1))
  (List.range count).map (fun i => if i = count - 1 then lastAmount else regularAmount)

/-- Custom mode of `createLoan` (actions.ts lines 127-139).  The raw form
values are modelled post-`parseFloat`: `none` is a value that parses to `NaN`.
Checks, in source order: the number of amounts matches `count`; every amount
is a number and non-negative; the rounded sum is within 0.01 of `total`. -/
def customAmounts (total : ℚ) (count : ℕ) (raw : List (Option ℚ)) :
    Except LoanError (List ℚ) :=
  if raw.length ≠ count then .error .customCountMismatch
  else
    let amounts := raw.map (fun a => a.getD 0)
    if raw.any (fun a => a.isNone) ∨ amounts.any (fun a => a < 0) then
      .error .customInvalidAmount
    else
      let sum := toFixed2 (amounts.foldl (· + ·) 0)
      if 1 / 100 < |sum - total| then .error (.customSumMismatch sum total)
      else .ok amounts

/-- Dispatch on `installment_mode` (any string other than `"custom"`,
including the default `"equal"`, selects the equal mode). -/
def computeAmounts (mode : String) (total : ℚ) (count : ℕ)
    (raw : List (Option ℚ)) : Except LoanError (List ℚ) :=
  if mode = "custom" then customAmounts total count raw
  else .ok (equalAmounts total count)

-- ── Schedule Date Generator ───────────────────────────────────────────────────

/-- Hardcoded payment day (actions.ts line 176). -/
def PAYMENT_DAY : Nat := 10

/-- Model of `new Date(y, m0, d)` followed by the `[getFullYear(),
getMonth()+1, getDate()].join('-')` formatting, for a 0-based month index `m0`
(possibly ≥ 12) and a day `d` that is valid in every month (here always
`PAYMENT_DAY = 10`): surplus months carry into the year. -/
def jsDateOfYM (y : Int) (m0 : Nat) (d : Nat) : CalDate :=
  ⟨y + (m0 / 12 : Nat), m0 % 12 + 1, d⟩

/-- Deduction date of installment `i` (0-indexed) for a loan starting in
year `sd.year`, 1-based month `sd.month` (actions.ts line 180):
`new Date(start.getFullYear(), start.getMonth() + 1 + i, PAYMENT_DAY)`. -/
def installmentDate (sd : CalDate) (i : Nat) : CalDate :=
  jsDateOfYM sd.year ((sd.month - 1) + 1 + i) PAYMENT_DAY

/-- The full generated schedule for `count` installments. -/
def installmentDates (sd : CalDate) (count : Nat) : List CalDate :=
  (List.range count).map (installmentDate sd)

-- ── Loan Lifecycle Manager ────────────────────────────────────────────────────

/-- Which store/blob writes fail in this run (failure injection for the
persistence and storage collaborators). -/
structure StoreFailures where
  loanInsert : Bool
  instInsert : Bool
  upload : Bool
deriving DecidableEq

/-- `admin.from('loans').delete().eq('id', loan.id)`: by the schema
(`loan_installments.loan_id REFERENCES loans(id) ON DELETE CASCADE`) this also
removes all installments of the loan. -/
def deleteLoanCascade (s : Store) (lid : Nat) : Store :=
  { loans := s.loans.filter (fun l => l.id != lid),
    installments := s.installments.filter (fun j => j.loan_id != lid) }

/-- `admin.from('loans').update({ status, updated_at }).eq('id', loanId)`. -/
def updateLoanStatus (s : Store) (lid : Nat) (st : LoanStatus) (now : Nat) : Store :=
  { s with
    loans := s.loans.map (fun l =>
      if l.id = lid then { l with status := st, updated_at := now } else l) }

/-- The form data of `createLoan`, modelled post-parse.  `employee_id`,
`currency`: the empty string models a missing/empty field.  `total_amount`
and `installments_raw`: the outer `none` models a missing/empty field, the
inner `none` a value on which `parseFloat`/`parseInt` returns `NaN`.
`already_paid`: `none` models `NaN`; a missing field defaults to `some 0`
(source idiom `parseInt(... or '0')`).  `installment_mode` / `deduction_method`: missing
fields default to `"equal"` / `"salary"`.  `has_contract_file` models a
supplied file of positive size.  `custom_amounts` models
`formData.getAll('custom_amounts')` after `parseFloat` (`none` = `NaN`). -/
structure CreateLoanForm where
  employee_id : String
  total_amount : Option (Option ℚ)
  currency : String
  installments_raw : Option (Option Int)
  start_date : Option CalDate
  notes : Option String
  already_paid : Option Int
  installment_mode : String
  deduction_method : String
  contract_url : Option String
  has_contract_file : Bool
  custom_amounts : List (Option ℚ)
deriving DecidableEq

/-- Validation phase of `createLoan` (actions.ts lines 112-147), in source
order, ending with the allocator.  Returns the parsed total, the installment
count, the already-paid count and the per-installment amounts. -/
def validateCreateLoan (f : CreateLoanForm) :
    Except LoanError (ℚ × ℕ × ℕ × List ℚ) :=
  if f.employee_id = "" ∨ f.total_amount = none ∨ f.currency = "" ∨
      f.installments_raw = none ∨ f.start_date = none then .error .missingFields
  else
    let t? := f.total_amount.getD none
    let n? := f.installments_raw.getD none
    if t? = none ∨ t?.getD 0 ≤ 0 then .error .invalidTotal
    else if n? = none ∨ n?.getD 0 < 1 then .error .invalidCount
    else if f.already_paid = none ∨ f.already_paid.getD 0 < 0 then
      .error .invalidAlreadyPaid
    else if n?.getD 0 < f.already_paid.getD 0 then .error .alreadyPaidExceeds
    else if ¬ (f.deduction_method = "salary" ∨ f.deduction_method = "bonus" ∨
        f.deduction_method = "flexible") then .error .invalidDeductionMethod
    else
      match computeAmounts f.installment_mode (t?.getD 0) (n?.getD 0).toNat
          f.custom_amounts with
      | .error e => .error e
      | .ok amounts =>
          .ok (t?.getD 0, (n?.getD 0).toNat, (f.already_paid.getD 0).toNat, amounts)

/-- Storage path of an uploaded contract file (actions.ts line 207),
with the extension fixed to the `pdf` default. -/
def contractPath (employeeId : String) (lid : Nat) : String :=
  employeeId ++ "/" ++ toString lid ++ "/contract.pdf"

/-- The batch of installment rows generated by `createLoan` (actions.ts lines
178-196): row `i` (0-indexed) carries number `i + 1`, the generated deduction
date, the allocated amount, and is already `paid` (source `manual`, paid now)
iff `i < already_paid`.  Row ids model the database-generated ids. -/
def buildInstallments (lid iidBase now k : Nat) (sd : CalDate)
    (amounts : List ℚ) : List LoanInstallment :=
  amounts.mapIdx (fun i amount =>
    { id := iidBase + i
      loan_id := lid
      installment_number := i + 1
      deduction_date := installmentDate sd i
      amount := amount
      status := if i < k then .paid else .pending
      paid_at := if i < k then some now else none
      payment_source := if i < k then some .manual else none })

/-- The loan row inserted by `createLoan` (actions.ts lines 153-168): status
starts `active`, `monthly_deduction` stores the rounded average. -/
def loanRowOf (now lid : Nat) (f : CreateLoanForm) (total : ℚ) (count : Nat) : Loan :=
  { id := lid
    employee_id := f.employee_id
    total_amount := total
    currency := f.currency
    number_of_installments := count
    monthly_deduction := toFixed2 (total / count)
    start_date := f.start_date.getD ⟨0, 1, 1⟩
    status := .active
    notes := f.notes
    deduction_method := f.deduction_method
    contract_url := f.contract_url
    contract_file_path := none
    created_at := now
    updated_at := now }

/-- Persistence phase of `createLoan` (actions.ts lines 149-226): insert the
loan row (status `active`), batch-insert the installments (on failure delete
the loan and surface the error), upload the contract file if one was supplied
(on failure delete the loan — cascading to the installments — and surface the
error), record the contract path, and auto-close the loan as `paid` when
`already_paid >= number_of_installments`. -/
def persistLoan (now lid iidBase : Nat) (fail : StoreFailures)
    (f : CreateLoanForm) (total : ℚ) (count k : Nat) (amounts : List ℚ)
    (s : Store) : Except LoanError Unit × Store :=
  if fail.loanInsert then (.error .persistence, s)
  else
    let sd := f.start_date.getD ⟨0, 1, 1⟩
    let s1 : Store := { s with loans := s.loans ++ [loanRowOf now lid f total count] }
    if fail.instInsert then (.error .persistence, deleteLoanCascade s1 lid)
    else
      let s2 : Store :=
        { s1 with installments :=
            s1.installments ++ buildInstallments lid iidBase now k sd amounts }
      if f.has_contract_file && fail.upload then
        (.error .storage, deleteLoanCascade s2 lid)
      else
        let s3 : Store :=
          if f.has_contract_file then
            { s2 with loans := s2.loans.map (fun l =>
                if l.id = lid then
                  { l with contract_file_path := some (contractPath f.employee_id lid) }
                else l) }
          else s2
        let s4 : Store := if count ≤ k then updateLoanStatus s3 lid .paid now else s3
        (.ok (), s4)

/-- `createLoan` (actions.ts lines 96-231).  `perm` is the answer of the
permission gate (`requireLoanManage`); `now` the current time; `lid` and
`iidBase` the database-generated ids for the new loan row and its installment
rows.  Returns the structured result together with the resulting store. -/
def createLoan (perm : Bool) (now lid iidBase : Nat) (fail : StoreFailures)
    (f : CreateLoanForm) (s : Store) : Except LoanError Unit × Store :=
  if perm = false then (.error .permission, s)
  else
    match validateCreateLoan f with
    | .error e => (.error e, s)
    | .ok (total, count, k, amounts) =>
        persistLoan now lid iidBase fail f total count k amounts s

/-- The row update of `markInstallmentPaid`:
`.update({ status: 'paid', paid_at: now, payment_source: src }).eq('id', instId)`
applied to one row. -/
def payInstRow (now : Nat) (src : PaymentSource) (instId : Nat)
    (j : LoanInstallment) : LoanInstallment :=
  if j.id = instId then
    { j with status := .paid, paid_at := some now, payment_source := some src }
  else j

/-- The store after the installment update of `markInstallmentPaid`. -/
def markedStore (s : Store) (now : Nat) (src : PaymentSource) (instId : Nat) :
    Store :=
  { s with installments := s.installments.map (payInstRow now src instId) }

/-- `markInstallmentPaid` (actions.ts lines 235-273): validate the payment
source, unconditionally update the targeted installment row to `paid` with the
current timestamp and the given source, then re-fetch all installments of the
loan and, if every one is `paid`, update the loan to `paid`. -/
def markInstallmentPaid (perm : Bool) (now instId loanId : Nat)
    (source : String) (s : Store) : Except LoanError Unit × Store :=
  if perm = false then (.error .permission, s)
  else
    match PaymentSource.ofString source with
    | none => (.error .invalidPaymentSource, s)
    | some src =>
        if ((markedStore s now src instId).installments.filter
              (fun j => j.loan_id == loanId)).all
            (fun j => j.status == InstStatus.paid) then
          (.ok (), updateLoanStatus (markedStore s now src instId) loanId .paid now)
        else (.ok (), markedStore s now src instId)

/-- `cancelLoan` (actions.ts lines 277-291): update the loan's status to
`cancelled` (unconditionally — no filter on the current status). -/
def cancelLoan (perm : Bool) (now loanId : Nat) (s : Store) :
    Except LoanError Unit × Store :=
  if perm = false then (.error .permission, s)
  else (.ok (), updateLoanStatus s loanId .cancelled now)

-- ── Allocator lemmas ──────────────────────────────────────────────────────────

theorem equalAmounts_eq_replicate_append (t : ℚ) (n : ℕ) (hn : 1 ≤ n) :
    equalAmounts t n =
      List.replicate (n - 1) (toFixed2 (t / n)) ++
        [toFixed2 (t - toFixed2 (t / n) * ((n : ℚ) - 1))] := by
  obtain ⟨m, rfl⟩ : ∃ m, n = m + 1 := ⟨n - 1, by omega⟩
  unfold equalAmounts
  rw [List.range_succ, List.map_append]
  congr 1
  · refine (List.eq_replicate_iff.mpr ⟨by simp, ?_⟩)
    intro b hb
    obtain ⟨i, hi, rfl⟩ := List.mem_map.mp hb
    rw [List.mem_range] at hi
    rw [if_neg (by omega)]
  · simp

theorem isCent_equalAmounts_sum (t : ℚ) (n : ℕ) (hn : 1 ≤ n) (ht : IsCent t) :
    (equalAmounts t n).sum = t := by
  rw [equalAmounts_eq_replicate_append t n hn, List.sum_append, List.sum_replicate,
    List.sum_cons, List.sum_nil]
  have hreg : IsCent (toFixed2 (t / n)) := isCent_toFixed2 _
  have hcast : ((n - 1 : ℕ) : ℚ) = (n : ℚ) - 1 := by
    push_cast [hn]
    ring
  have hmul : IsCent (toFixed2 (t / n) * ((n : ℚ) - 1)) := by
    have h := hreg.mul_int ((n - 1 : ℕ) : ℤ)
    rw [show ((((n - 1 : ℕ) : ℤ)) : ℚ) = ((n - 1 : ℕ) : ℚ) by push_cast; ring, hcast] at h
    exact h
  have hlast : toFixed2 (t - toFixed2 (t / n) * ((n : ℚ) - 1)) =
      t - toFixed2 (t / n) * ((n : ℚ) - 1) := (ht.sub hmul).toFixed2_eq
  rw [hlast, nsmul_eq_mul, hcast]
  ring

-- ── Claim C1 ──────────────────────────────────────────────────────────────────

/-- C1: for every cent-valued total > 0 and every count ≥ 1, the equal-mode
allocator of createLoan produces exactly `count` amounts — the first
`count - 1` equal to `round(total/count)` to 2 decimals and the last equal to
`round(total - regular*(count-1))` — whose sum, after rounding, equals `total`
exactly; for `count = 1` the single amount equals `total`, and for
`total = 100.00, count = 3` the output is `[33.33, 33.33, 33.34]`. -/
theorem equal_mode_allocation_spec (t : ℚ) (n : ℕ) (ht : 0 < t) (htc : IsCent t)
    (hn : 1 ≤ n) :
    (equalAmounts t n).length = n ∧
    (∀ i, i < n - 1 → (equalAmounts t n).getD i 0 = toFixed2 (t / n)) ∧
    (equalAmounts t n).getD (n - 1) 0 =
      toFixed2 (t - toFixed2 (t / n) * ((n : ℚ) - 1)) ∧
    toFixed2 ((equalAmounts t n).sum) = t ∧
    equalAmounts t 1 = [t] ∧
    equalAmounts 100 3 = [3333 / 100, 3333 / 100, 1667 / 50] := by
  have he := equalAmounts_eq_replicate_append t n hn
  refine ⟨?_, ?_, ?_, ?_, ?_, ?_⟩
  · rw [he]; simp; omega
  · intro i hi
    rw [he]
    rw [List.getD_eq_getElem?_getD, List.getElem?_append_left (by simp; omega),
      List.getElem?_replicate]
    simp [hi]
  · rw [he]
    rw [List.getD_eq_getElem?_getD, List.getElem?_append_right (by simp)]
    simp
  · rw [isCent_equalAmounts_sum t n hn htc, htc.toFixed2_eq]
  · rw [equalAmounts_eq_replicate_append t 1 le_rfl]
    norm_num
    rw [htc.toFixed2_eq]
  · norm_num [equalAmounts, toFixed2, round_eq, List.range_succ]

/-- Witness for C1: the theorem applied at `total = 100`, `count = 3`. -/
theorem equal_mode_allocation_spec_witness :
    toFixed2 ((equalAmounts 100 3).sum) = 100 :=
  (equal_mode_allocation_spec 100 3 (by norm_num) ⟨10000, by norm_num⟩
    (by norm_num)).2.2.2.1

-- ── Claim C4 ──────────────────────────────────────────────────────────────────

/-- Following the claim's wording: the calendar date `(year, month, day)` for a
1-based `month` value possibly past December, with the surplus carried into
subsequent years (month 13 becomes January of the next year, etc.). -/
def carryDate (y : Int) (m : Nat) (d : Nat) : CalDate :=
  ⟨y + ((m - 1) / 12 : Nat), (m - 1) % 12 + 1, d⟩

/-- C4: for every start date and every count ≥ 1, the schedule date generator
of createLoan assigns installment `i` (0-indexed) the calendar date
`(startYear, startMonth + 1 + i, 10)` with month values past December carried
into subsequent years; start 2024-01-15, count 3 yields
`[2024-02-10, 2024-03-10, 2024-04-10]` and start 2024-11-20, count 3 yields
`[2024-12-10, 2025-01-10, 2025-02-10]`. -/
theorem schedule_dates_spec (sd : CalDate) (n i : ℕ) (hm : 1 ≤ sd.month)
    (hi : i < n) :
    (installmentDates sd n).length = n ∧
    (installmentDates sd n).getD i ⟨0, 1, 1⟩ =
      carryDate sd.year (sd.month + 1 + i) PAYMENT_DAY ∧
    installmentDates ⟨2024, 1, 15⟩ 3 =
      [⟨2024, 2, 10⟩, ⟨2024, 3, 10⟩, ⟨2024, 4, 10⟩] ∧
    installmentDates ⟨2024, 11, 20⟩ 3 =
      [⟨2024, 12, 10⟩, ⟨2025, 1, 10⟩, ⟨2025, 2, 10⟩] := by
  refine ⟨by simp [installmentDates], ?_, by decide, by decide⟩
  rw [installmentDates, List.getD_eq_getElem?_getD, List.getElem?_map,
    List.getElem?_range hi]
  simp only [Option.map_some', Option.getD_some]
  unfold installmentDate jsDateOfYM carryDate
  have h1 : sd.month - 1 + 1 + i = sd.month + i := by omega
  have h2 : sd.month + 1 + i - 1 = sd.month + i := by omega
  rw [h1, h2]

/-- Witness for C4: the theorem applied at start date 2024-11-20 with
`count = 3`, `i = 1`, showing the year-boundary roll to 2025-01-10. -/
theorem schedule_dates_spec_witness :
    (installmentDates ⟨2024, 11, 20⟩ 3).getD 1 ⟨0, 1, 1⟩ =
      carryDate 2024 (11 + 1 + 1) PAYMENT_DAY :=
  (schedule_dates_spec ⟨2024, 11, 20⟩ 3 1 (by decide) (by decide)).2.1

-- ── Claim C3 ──────────────────────────────────────────────────────────────────

/-- A store holding one loan (id 1) in status `paid` with its single
installment paid. -/
def paidLoan : Loan :=
  { id := 1, employee_id := "e", total_amount := 50, currency := "USD",
    number_of_installments := 1, monthly_deduction := 50, start_date := ⟨2024, 1, 1⟩,
    status := .paid, notes := none, deduction_method := "salary", contract_url := none,
    contract_file_path := none, created_at := 0, updated_at := 0 }

def paidInst : LoanInstallment :=
  { id := 21, loan_id := 1, installment_number := 1, deduction_date := ⟨2024, 2, 10⟩,
    amount := 50, status := .paid, paid_at := some 0, payment_source := some .manual }

def paidLoanStore : Store := { loans := [paidLoan], installments := [paidInst] }

/-- The same loan in status `cancelled` with its single installment pending. -/
def cancelledLoanStore : Store :=
  { loans := [{ paidLoan with status := .cancelled }],
    installments :=
      [{ paidInst with status := .pending, paid_at := none, payment_source := none }] }

/-- Counterexample to C2: `cancelLoan` moves a `paid` loan to `cancelled`
(paid is not terminal), and `markInstallmentPaid` on the last pending
installment of a `cancelled` loan moves the loan to `paid` (cancelled is not
terminal): the actions filter only on the loan id, never on the current
status. -/
theorem loan_status_terminality_counterexample :
    (paidLoanStore.loans.map Loan.status = [.paid] ∧
      (cancelLoan true 7 1 paidLoanStore).2.loans.map Loan.status = [.cancelled]) ∧
    (cancelledLoanStore.loans.map Loan.status = [.cancelled] ∧
      (markInstallmentPaid true 7 21 1 "salary" cancelledLoanStore).2.loans.map
        Loan.status = [.paid]) :=
  ⟨⟨rfl, rfl⟩, ⟨rfl, rfl⟩⟩

theorem markInstallmentPaid_eq (s : Store) (now iid lid : ℕ) (src : String)
    (src' : PaymentSource) (hsrc : PaymentSource.ofString src = some src') :
    markInstallmentPaid true now iid lid src s =
      if ((markedStore s now src' iid).installments.filter
            (fun j => j.loan_id == lid)).all (fun j => j.status == InstStatus.paid) then
        (.ok (), updateLoanStatus (markedStore s now src' iid) lid .paid now)
      else (.ok (), markedStore s now src' iid) := by
  simp only [markInstallmentPaid, hsrc]
  rfl

/-- C2 (amended): the status of a loan changes only to `cancelled` (via
cancelLoan, which sets it regardless of the previous status — so `paid` is not
terminal) or to `paid` (via markInstallmentPaid, whenever after the
installment update every installment of the loan is paid, regardless of the
previous status — so `cancelled` is not terminal); no other status change
occurs: loans other than the targeted one are carried over identically by both
operations, the targeted loan changes exactly to the commanded status (with a
refreshed timestamp), and when the all-paid condition fails markInstallmentPaid
leaves every loan row unchanged. -/
theorem loan_status_transitions_amended (s : Store) (lid iid now : ℕ)
    (src : String) (src' : PaymentSource)
    (hsrc : PaymentSource.ofString src = some src') :
    (∀ l ∈ (cancelLoan true now lid s).2.loans, l.id = lid → l.status = .cancelled) ∧
    (((markInstallmentPaid true now iid lid src s).2.installments.filter
        (fun j => j.loan_id == lid)).all (fun j => j.status == InstStatus.paid) = true →
      ∀ l ∈ (markInstallmentPaid true now iid lid src s).2.loans, l.id = lid →
        l.status = .paid) ∧
    (∀ l ∈ s.loans, l.id ≠ lid →
      l ∈ (cancelLoan true now lid s).2.loans ∧
      l ∈ (markInstallmentPaid true now iid lid src s).2.loans) ∧
    (∀ l2 ∈ (cancelLoan true now lid s).2.loans, ∃ l ∈ s.loans, l2.id = l.id ∧
      (l.id ≠ lid → l2 = l) ∧
      (l.id = lid → l2 = { l with status := .cancelled, updated_at := now })) ∧
    (((markInstallmentPaid true now iid lid src s).2.installments.filter
        (fun j => j.loan_id == lid)).all (fun j => j.status == InstStatus.paid) = false →
      (markInstallmentPaid true now iid lid src s).2.loans = s.loans) ∧
    (((markInstallmentPaid true now iid lid src s).2.installments.filter
        (fun j => j.loan_id == lid)).all (fun j => j.status == InstStatus.paid) = true →
      ∀ l2 ∈ (markInstallmentPaid true now iid lid src s).2.loans, ∃ l ∈ s.loans,
        l2.id = l.id ∧ (l.id ≠ lid → l2 = l) ∧
        (l.id = lid → l2 = { l with status := .paid, updated_at := now })) := by
  rw [markInstallmentPaid_eq s now iid lid src src' hsrc]
  refine ⟨?_, ?_, ?_, ?_, ?_, ?_⟩
  · intro l hl hid
    replace hl : l ∈ s.loans.map (fun l => if l.id = lid then
        { l with status := LoanStatus.cancelled, updated_at := now } else l) := hl
    obtain ⟨l0, hl0, rfl⟩ := List.mem_map.mp hl
    by_cases h : l0.id = lid
    · rw [if_pos h]
    · rw [if_neg h] at hid ⊢
      exact absurd hid h
  · split_ifs with hall
    · intro _ l hl hid
      replace hl : l ∈ s.loans.map (fun j =>
          if j.id = lid then { j with status := LoanStatus.paid, updated_at := now }
          else j) := hl
      obtain ⟨l0, hl0, rfl⟩ := List.mem_map.mp hl
      by_cases h : l0.id = lid
      · rw [if_pos h]
      · rw [if_neg h] at hid ⊢
        exact absurd hid h
    · intro hall2
      exact absurd hall2 hall
  · intro l hl hne
    constructor
    · show l ∈ s.loans.map (fun l => if l.id = lid then
        { l with status := LoanStatus.cancelled, updated_at := now } else l)
      exact List.mem_map.mpr ⟨l, hl, by rw [if_neg hne]⟩
    · split_ifs with hall
      · show l ∈ s.loans.map (fun j =>
          if j.id = lid then { j with status := LoanStatus.paid, updated_at := now }
          else j)
        exact List.mem_map.mpr ⟨l, hl, by rw [if_neg hne]⟩
      · exact hl
  · intro l2 hl2
    replace hl2 : l2 ∈ s.loans.map (fun l => if l.id = lid then
        { l with status := LoanStatus.cancelled, updated_at := now } else l) := hl2
    obtain ⟨l, hl, rfl⟩ := List.mem_map.mp hl2
    by_cases h : l.id = lid
    · rw [if_pos h]
      exact ⟨l, hl, rfl, fun hne => absurd h hne, fun _ => rfl⟩
    · rw [if_neg h]
      exact ⟨l, hl, rfl, fun _ => rfl, fun heq => absurd heq h⟩
  · split_ifs with hall
    · intro hcontra
      rw [show ((Except.ok (), updateLoanStatus (markedStore s now src' iid) lid
          LoanStatus.paid now) : Except LoanError Unit × Store).2.installments
          = (markedStore s now src' iid).installments from rfl] at hcontra
      rw [hall] at hcontra
      cases hcontra
    · intro _
      rfl
  · split_ifs with hall
    · intro _ l2 hl2
      replace hl2 : l2 ∈ s.loans.map (fun j =>
          if j.id = lid then { j with status := LoanStatus.paid, updated_at := now }
          else j) := hl2
      obtain ⟨l, hl, rfl⟩ := List.mem_map.mp hl2
      by_cases h : l.id = lid
      · rw [if_pos h]
        exact ⟨l, hl, rfl, fun hne => absurd h hne, fun _ => rfl⟩
      · rw [if_neg h]
        exact ⟨l, hl, rfl, fun _ => rfl, fun heq => absurd heq h⟩
    · intro hall2
      exact absurd hall2 hall

/-- Witness for the amended C2: applied to the concrete paid-loan store. -/
theorem loan_status_transitions_amended_witness :
    ({ paidLoan with status := LoanStatus.cancelled, updated_at := 7 } : Loan).status =
      LoanStatus.cancelled :=
  (loan_status_transitions_amended paidLoanStore 1 21 7 "salary" .salary rfl).1
    { paidLoan with status := LoanStatus.cancelled, updated_at := 7 }
    (List.mem_cons_self _ _) rfl

/-- C10: cancelLoan modifies only the targeted loan's status (to `cancelled`)
and its updated-at timestamp; the installment table is untouched, loans with a
different id are untouched, and every other field of the targeted loan is
preserved. -/
theorem cancelLoan_frame_spec (now loanId : ℕ) (s : Store) :
    (cancelLoan true now loanId s).1 = .ok () ∧
    (cancelLoan true now loanId s).2.installments = s.installments ∧
    (∀ l ∈ s.loans, l.id ≠ loanId → l ∈ (cancelLoan true now loanId s).2.loans) ∧
    (∀ l' ∈ (cancelLoan true now loanId s).2.loans, ∃ l ∈ s.loans,
      l'.id = l.id ∧ l'.employee_id = l.employee_id ∧ l'.total_amount = l.total_amount ∧
      l'.currency = l.currency ∧ l'.number_of_installments = l.number_of_installments ∧
      l'.monthly_deduction = l.monthly_deduction ∧ l'.start_date = l.start_date ∧
      l'.notes = l.notes ∧ l'.deduction_method = l.deduction_method ∧
      l'.contract_url = l.contract_url ∧ l'.contract_file_path = l.contract_file_path ∧
      l'.created_at = l.created_at ∧
      (l.id = loanId → l'.status = .cancelled ∧ l'.updated_at = now) ∧
      (l.id ≠ loanId → l' = l)) := by
  refine ⟨rfl, rfl, ?_, ?_⟩
  · intro l hl hne
    show l ∈ s.loans.map (fun l => if l.id = loanId then
      { l with status := LoanStatus.cancelled, updated_at := now } else l)
    exact List.mem_map.mpr ⟨l, hl, by rw [if_neg hne]⟩
  · intro l' hl'
    replace hl' : l' ∈ s.loans.map (fun l => if l.id = loanId then
        { l with status := LoanStatus.cancelled, updated_at := now } else l) := hl'
    obtain ⟨l, hl, rfl⟩ := List.mem_map.mp hl'
    by_cases hid : l.id = loanId
    · rw [if_pos hid]
      exact ⟨l, hl, rfl, rfl, rfl, rfl, rfl, rfl, rfl, rfl, rfl, rfl, rfl, rfl,
        fun _ => ⟨rfl, rfl⟩, fun h => absurd hid h⟩
    · rw [if_neg hid]
      exact ⟨l, hl, rfl, rfl, rfl, rfl, rfl, rfl, rfl, rfl, rfl, rfl, rfl, rfl,
        fun h => absurd h hid, fun _ => rfl⟩

-- ── Claims C5 and C7 ──────────────────────────────────────────────────────────

theorem all_paid_iff (L : List LoanInstallment) (lid : ℕ) :
    ((L.filter (fun j => j.loan_id == lid)).all
        (fun j => j.status == InstStatus.paid) = true) ↔
      ∀ j ∈ L, j.loan_id = lid → j.status = .paid := by
  simp [List.all_eq_true, List.mem_filter, beq_iff_eq]
  constructor
  · intro h j hj hlid
    rcases h j hj with h1 | h1
    · exact absurd hlid h1
    · exact h1
  · intro h j hj
    by_cases hl : j.loan_id = lid
    · exact Or.inr (h j hj hl)
    · exact Or.inl hl

/-- The concrete C5 scenario: an active loan with three installments, the
first two already paid. -/
def activeLoan3 : Loan :=
  { id := 1, employee_id := "e", total_amount := 90, currency := "USD",
    number_of_installments := 3, monthly_deduction := 30, start_date := ⟨2024, 1, 1⟩,
    status := .active, notes := none, deduction_method := "salary", contract_url := none,
    contract_file_path := none, created_at := 0, updated_at := 0 }

def inst31 : LoanInstallment :=
  { id := 31, loan_id := 1, installment_number := 1, deduction_date := ⟨2024, 2, 10⟩,
    amount := 30, status := .paid, paid_at := some 1, payment_source := some .salary }

def inst32 : LoanInstallment :=
  { id := 32, loan_id := 1, installment_number := 2, deduction_date := ⟨2024, 3, 10⟩,
    amount := 30, status := .paid, paid_at := some 2, payment_source := some .salary }

def inst33 : LoanInstallment :=
  { id := 33, loan_id := 1, installment_number := 3, deduction_date := ⟨2024, 4, 10⟩,
    amount := 30, status := .pending, paid_at := none, payment_source := none }

def threeInstStore : Store :=
  { loans := [activeLoan3], installments := [inst31, inst32, inst33] }

/-- C5: after a successful markInstallmentPaid on an existing installment of
an existing loan (starting from a state satisfying the invariant that a paid
loan has only paid installments), the targeted installment is paid and the
loan's status is paid exactly when every installment of the loan is paid;
in the concrete scenario — 3 installments, 2 already paid, the 3rd marked —
the loan moves from active to paid in the same operation. -/
theorem mark_paid_status_reflects_spec (s : Store) (iid lid now : ℕ) (src : String)
    (src' : PaymentSource) (hsrc : PaymentSource.ofString src = some src')
    (inst : LoanInstallment) (hin : inst ∈ s.installments) (hiid : inst.id = iid)
    (hlid : inst.loan_id = lid)
    (loan : Loan) (hloan : loan ∈ s.loans) (hloanid : loan.id = lid)
    (hinv : loan.status = .paid →
      ∀ j ∈ s.installments, j.loan_id = lid → j.status = .paid) :
    (markInstallmentPaid true now iid lid src s).1 = .ok () ∧
    (∀ j ∈ (markInstallmentPaid true now iid lid src s).2.installments, j.id = iid →
      j.status = .paid) ∧
    ((∀ l ∈ (markInstallmentPaid true now iid lid src s).2.loans, l.id = lid →
        l.status = .paid) ↔
      (∀ j ∈ (markInstallmentPaid true now iid lid src s).2.installments,
        j.loan_id = lid → j.status = .paid)) ∧
    threeInstStore.loans.map Loan.status = [.active] ∧
    (markInstallmentPaid true 9 33 1 "salary" threeInstStore).2.loans.map Loan.status
      = [.paid] ∧
    (markInstallmentPaid true 9 33 1 "salary" threeInstStore).2.installments.map
      LoanInstallment.status = [.paid, .paid, .paid] := by
  rw [markInstallmentPaid_eq s now iid lid src src' hsrc]
  have hmarked : ∀ j ∈ (markedStore s now src' iid).installments, j.id = iid →
      j.status = .paid := by
    intro j hj hjid
    replace hj : j ∈ s.installments.map (payInstRow now src' iid) := hj
    obtain ⟨j0, hj0, rfl⟩ := List.mem_map.mp hj
    unfold payInstRow at hjid ⊢
    by_cases h : j0.id = iid
    · rw [if_pos h]
    · rw [if_neg h] at hjid ⊢
      exact absurd hjid h
  have hpres : (∀ j ∈ s.installments, j.loan_id = lid → j.status = .paid) →
      ∀ j ∈ (markedStore s now src' iid).installments, j.loan_id = lid →
        j.status = .paid := by
    intro hall j hj hjl
    replace hj : j ∈ s.installments.map (payInstRow now src' iid) := hj
    obtain ⟨j0, hj0, rfl⟩ := List.mem_map.mp hj
    unfold payInstRow at hjl ⊢
    by_cases h : j0.id = iid
    · rw [if_pos h]
    · rw [if_neg h] at hjl ⊢
      exact hall j0 hj0 hjl
  split_ifs with hall
  · refine ⟨rfl, hmarked, ?_, rfl, rfl, rfl⟩
    have hR := (all_paid_iff (markedStore s now src' iid).installments lid).mp hall
    constructor
    · intro _
      exact hR
    · intro _ l hl hid
      replace hl : l ∈ (markedStore s now src' iid).loans.map (fun j =>
          if j.id = lid then { j with status := LoanStatus.paid, updated_at := now }
          else j) := hl
      obtain ⟨l0, hl0, rfl⟩ := List.mem_map.mp hl
      by_cases h : l0.id = lid
      · rw [if_pos h]
      · rw [if_neg h] at hid ⊢
        exact absurd hid h
  · refine ⟨rfl, hmarked, ?_, rfl, rfl, rfl⟩
    constructor
    · intro hL
      have hstat : loan.status = .paid := hL loan hloan hloanid
      exact hpres (hinv hstat)
    · intro hR
      exact absurd
        ((all_paid_iff (markedStore s now src' iid).installments lid).mpr hR) hall

/-- Witness for C5: the theorem applied to the concrete 3-installment store. -/
theorem mark_paid_status_reflects_spec_witness :
    (markInstallmentPaid true 9 33 1 "salary" threeInstStore).1 = .ok () :=
  (mark_paid_status_reflects_spec threeInstStore 33 1 9 "salary" .salary rfl inst33
    (List.mem_cons_of_mem _ (List.mem_cons_of_mem _ (List.mem_cons_self _ _))) rfl rfl
    activeLoan3 (List.mem_cons_self _ _) rfl
    (fun h => absurd h (by decide))).1

/-- The concrete C7 scenario: installment 31 is already paid (source salary,
paid at time 1); installment 33 is pending, keeping the loan out of the
auto-close path. -/
def remarkStore : Store :=
  { loans := [activeLoan3], installments := [inst31, inst33] }

/-- Counterexample to C7: re-marking the already-paid installment 31 at time
200 with source manual is not an error, but it overwrites the stored paid
timestamp (1 becomes 200) and payment source (salary becomes manual) instead
of leaving the installment unchanged. -/
theorem mark_paid_rewrite_counterexample :
    remarkStore.installments.map (fun j => (j.status, j.paid_at, j.payment_source)) =
      [(.paid, some 1, some .salary), (.pending, none, none)] ∧
    (markInstallmentPaid true 200 31 1 "manual" remarkStore).1 = .ok () ∧
    (markInstallmentPaid true 200 31 1 "manual" remarkStore).2.installments.map
        (fun j => (j.status, j.paid_at, j.payment_source)) =
      [(.paid, some 200, some .manual), (.pending, none, none)] ∧
    (markInstallmentPaid true 200 31 1 "manual" remarkStore).2.loans =
      remarkStore.loans :=
  ⟨rfl, rfl, rfl, rfl⟩

/-- C7 (amended): markInstallmentPaid on an already-paid installment is not an
error and the installment stays paid, but its paid timestamp and payment
source are overwritten with the current call's values; other installments are
unchanged, and the loan rows are unchanged whenever some installment of the
loan is still unpaid afterwards. -/
theorem mark_paid_remark_amended (s : Store) (iid lid now : ℕ) (src : String)
    (src' : PaymentSource) (hsrc : PaymentSource.ofString src = some src')
    (hpaid : ∀ j ∈ s.installments, j.id = iid → j.status = .paid) :
    (markInstallmentPaid true now iid lid src s).1 = .ok () ∧
    (∀ j ∈ (markInstallmentPaid true now iid lid src s).2.installments, j.id = iid →
      j.status = .paid ∧ j.paid_at = some now ∧ j.payment_source = some src') ∧
    (∀ j ∈ (markInstallmentPaid true now iid lid src s).2.installments, j.id ≠ iid →
      j ∈ s.installments) ∧
    (((markInstallmentPaid true now iid lid src s).2.installments.filter
        (fun j => j.loan_id == lid)).all (fun j => j.status == InstStatus.paid) = false →
      (markInstallmentPaid true now iid lid src s).2.loans = s.loans) := by
  rw [markInstallmentPaid_eq s now iid lid src src' hsrc]
  have hinst : ∀ j ∈ (markedStore s now src' iid).installments, j.id = iid →
      j.status = .paid ∧ j.paid_at = some now ∧ j.payment_source = some src' := by
    intro j hj hjid
    replace hj : j ∈ s.installments.map (payInstRow now src' iid) := hj
    obtain ⟨j0, hj0, rfl⟩ := List.mem_map.mp hj
    unfold payInstRow at hjid ⊢
    by_cases h : j0.id = iid
    · rw [if_pos h]
      exact ⟨rfl, rfl, rfl⟩
    · rw [if_neg h] at hjid ⊢
      exact absurd hjid h
  have hother : ∀ j ∈ (markedStore s now src' iid).installments, j.id ≠ iid →
      j ∈ s.installments := by
    intro j hj hjid
    replace hj : j ∈ s.installments.map (payInstRow now src' iid) := hj
    obtain ⟨j0, hj0, rfl⟩ := List.mem_map.mp hj
    unfold payInstRow at hjid ⊢
    by_cases h : j0.id = iid
    · rw [if_pos h] at hjid
      exact absurd h hjid
    · rw [if_neg h]
      exact hj0
  split_ifs with hall
  · refine ⟨rfl, hinst, hother, ?_⟩
    intro hcontra
    rw [show (updateLoanStatus (markedStore s now src' iid) lid .paid now).installments
        = (markedStore s now src' iid).installments from rfl] at hcontra
    rw [hall] at hcontra
    cases hcontra
  · exact ⟨rfl, hinst, hother, fun _ => rfl⟩

/-- Witness for the amended C7: applied to the concrete re-marking scenario. -/
theorem mark_paid_remark_amended_witness :
    (markInstallmentPaid true 200 31 1 "manual" remarkStore).1 = .ok () :=
  (mark_paid_remark_amended remarkStore 31 1 200 "manual" .manual rfl
    (by decide)).1

-- ── createLoan persistence analysis (shared by C6, C8, C9) ────────────────────

theorem map_update_fresh (L : List Loan) (lid : ℕ) (g : Loan → Loan)
    (h : ∀ l ∈ L, l.id ≠ lid) :
    L.map (fun l => if l.id = lid then g l else l) = L := by
  induction L with
  | nil => rfl
  | cons a as ih =>
      rw [List.map_cons, if_neg (h a (List.mem_cons_self a as)),
        ih (fun l hl => h l (List.mem_cons_of_mem a hl))]

theorem filter_ne_fresh (L : List Loan) (lid : ℕ) (h : ∀ l ∈ L, l.id ≠ lid) :
    L.filter (fun l => l.id != lid) = L :=
  List.filter_eq_self.mpr (fun l hl => by simpa [bne_iff_ne] using h l hl)

theorem filter_inst_ne_fresh (L : List LoanInstallment) (lid : ℕ)
    (h : ∀ j ∈ L, j.loan_id ≠ lid) :
    L.filter (fun j => j.loan_id != lid) = L :=
  List.filter_eq_self.mpr (fun j hj => by simpa [bne_iff_ne] using h j hj)

theorem buildInstallments_loan_id (lid iidBase now k : ℕ) (sd : CalDate)
    (amounts : List ℚ) :
    ∀ j ∈ buildInstallments lid iidBase now k sd amounts, j.loan_id = lid := by
  intro j hj
  unfold buildInstallments at hj
  obtain ⟨i, h, rfl⟩ := List.mem_mapIdx.mp hj
  rfl

theorem buildInstallments_numbers (lid iidBase now k : ℕ) (sd : CalDate)
    (amounts : List ℚ) :
    (buildInstallments lid iidBase now k sd amounts).map
        (fun j => j.installment_number) =
      (List.range amounts.length).map (· + 1) := by
  apply List.ext_getElem
  · simp [buildInstallments]
  · intro i h1 h2
    simp only [buildInstallments, List.getElem_map, List.getElem_mapIdx,
      List.getElem_range]

theorem buildInstallments_fields (lid iidBase now k : ℕ) (sd : CalDate)
    (amounts : List ℚ) :
    ∀ j ∈ buildInstallments lid iidBase now k sd amounts,
      1 ≤ j.installment_number ∧ j.installment_number ≤ amounts.length ∧
      j.amount = amounts.getD (j.installment_number - 1) 0 ∧
      j.deduction_date = installmentDate sd (j.installment_number - 1) ∧
      (j.installment_number ≤ k → j.status = .paid ∧ j.paid_at = some now ∧
        j.payment_source = some .manual) ∧
      (k < j.installment_number → j.status = .pending ∧ j.paid_at = none ∧
        j.payment_source = none) := by
  intro j hj
  unfold buildInstallments at hj
  obtain ⟨i, h, rfl⟩ := List.mem_mapIdx.mp hj
  refine ⟨show 1 ≤ i + 1 by omega, show i + 1 ≤ amounts.length by omega, ?_, ?_, ?_, ?_⟩
  · show amounts[i] = amounts.getD (i + 1 - 1) 0
    rw [show i + 1 - 1 = i from rfl, List.getD_eq_getElem?_getD,
      List.getElem?_eq_getElem h, Option.getD_some]
  · rfl
  · intro hik
    have hlt : i < k := by
      have : i + 1 ≤ k := hik
      omega
    exact ⟨by simp [hlt], by simp [hlt], by simp [hlt]⟩
  · intro hik
    have hlt : ¬ (i < k) := by
      have : k < i + 1 := hik
      omega
    exact ⟨by simp [hlt], by simp [hlt], by simp [hlt]⟩

theorem deleteLoanCascade_rollback1 (s : Store) (lid : ℕ) (lr : Loan)
    (hfl : ∀ l ∈ s.loans, l.id ≠ lid)
    (hfi : ∀ j ∈ s.installments, j.loan_id ≠ lid) (hlr : lr.id = lid) :
    deleteLoanCascade { s with loans := s.loans ++ [lr] } lid = s := by
  obtain ⟨L, I⟩ := s
  simp only [deleteLoanCascade]
  congr 1
  · rw [List.filter_append, filter_ne_fresh L lid hfl]
    simp [hlr]
  · exact filter_inst_ne_fresh I lid hfi

theorem deleteLoanCascade_rollback2 (s : Store) (lid : ℕ) (lr : Loan)
    (newInsts : List LoanInstallment)
    (hfl : ∀ l ∈ s.loans, l.id ≠ lid)
    (hfi : ∀ j ∈ s.installments, j.loan_id ≠ lid) (hlr : lr.id = lid)
    (hnew : ∀ j ∈ newInsts, j.loan_id = lid) :
    deleteLoanCascade
      { loans := s.loans ++ [lr], installments := s.installments ++ newInsts } lid
      = s := by
  obtain ⟨L, I⟩ := s
  simp only [deleteLoanCascade]
  congr 1
  · rw [List.filter_append, filter_ne_fresh L lid hfl]
    simp [hlr]
  · rw [List.filter_append, filter_inst_ne_fresh I lid hfi]
    have hnil : newInsts.filter (fun j => j.loan_id != lid) = [] := by
      rw [List.filter_eq_nil_iff]
      intro j hj
      simp [hnew j hj]
    rw [hnil, List.append_nil]

theorem update_single (lid : ℕ) (g : Loan → Loan) (r : Loan) (hr : r.id = lid) :
    [r].map (fun l => if l.id = lid then g l else l) = [g r] := by
  rw [List.map_cons, List.map_nil]
  show (if r.id = lid then g r else r) :: [] = [g r]
  rw [if_pos hr]

theorem persistLoan_spec (now lid iidBase : ℕ) (fail : StoreFailures)
    (f : CreateLoanForm) (total : ℚ) (count k : ℕ) (amounts : List ℚ) (s : Store)
    (hfl : ∀ l ∈ s.loans, l.id ≠ lid)
    (hfi : ∀ j ∈ s.installments, j.loan_id ≠ lid) :
    ((∃ e, (persistLoan now lid iidBase fail f total count k amounts s).1 = .error e) →
      (persistLoan now lid iidBase fail f total count k amounts s).2 = s) ∧
    ((persistLoan now lid iidBase fail f total count k amounts s).1 = .ok () →
      (persistLoan now lid iidBase fail f total count k amounts s).2.installments =
        s.installments ++
          buildInstallments lid iidBase now k (f.start_date.getD ⟨0, 1, 1⟩) amounts ∧
      ∃ lr : Loan,
        (persistLoan now lid iidBase fail f total count k amounts s).2.loans =
          s.loans ++ [lr] ∧
        lr.id = lid ∧ lr.employee_id = f.employee_id ∧ lr.total_amount = total ∧
        lr.number_of_installments = count ∧
        lr.status = (if count ≤ k then LoanStatus.paid else .active)) := by
  have hbuild := buildInstallments_loan_id lid iidBase now k
    (f.start_date.getD ⟨0, 1, 1⟩) amounts
  have hg1 := map_update_fresh s.loans lid
    (fun l => { l with contract_file_path := some (contractPath f.employee_id lid) }) hfl
  have hg2 := map_update_fresh s.loans lid
    (fun l => { l with status := LoanStatus.paid, updated_at := now }) hfl
  simp only [persistLoan, updateLoanStatus]
  by_cases h1 : fail.loanInsert = true
  · rw [if_pos h1]
    exact ⟨fun _ => rfl, fun h => by cases h⟩
  · rw [if_neg h1]
    by_cases h2 : fail.instInsert = true
    · rw [if_pos h2]
      exact ⟨fun _ => deleteLoanCascade_rollback1 s lid _ hfl hfi rfl,
        fun h => by cases h⟩
    · rw [if_neg h2]
      by_cases h3 : (f.has_contract_file && fail.upload) = true
      · rw [if_pos h3]
        exact ⟨fun _ => deleteLoanCascade_rollback2 s lid _ _ hfl hfi rfl hbuild,
          fun h => by cases h⟩
      · rw [if_neg h3]
        by_cases h4 : f.has_contract_file = true
        · rw [if_pos h4]
          by_cases h5 : count ≤ k
          · rw [if_pos h5]
            refine ⟨?_, fun _ => ⟨rfl, ?_⟩⟩
            · rintro ⟨e, he⟩
              cases he
            · refine ⟨{ loanRowOf now lid f total count with
                  contract_file_path := some (contractPath f.employee_id lid),
                  status := LoanStatus.paid, updated_at := now }, ?_, rfl, rfl, rfl, rfl, ?_⟩
              · show ((s.loans ++ [loanRowOf now lid f total count]).map _).map _ = _
                rw [List.map_append, hg1, update_single lid _ _ rfl,
                  List.map_append, hg2, update_single lid _ _ rfl]
              · rw [if_pos h5]
          · rw [if_neg h5]
            refine ⟨?_, fun _ => ⟨rfl, ?_⟩⟩
            · rintro ⟨e, he⟩
              cases he
            · refine ⟨{ loanRowOf now lid f total count with
                  contract_file_path := some (contractPath f.employee_id lid) },
                  ?_, rfl, rfl, rfl, rfl, ?_⟩
              · show (s.loans ++ [loanRowOf now lid f total count]).map _ = _
                rw [List.map_append, hg1, update_single lid _ _ rfl]
              · rw [if_neg h5]
                rfl
        · rw [if_neg h4]
          by_cases h5 : count ≤ k
          · rw [if_pos h5]
            refine ⟨?_, fun _ => ⟨rfl, ?_⟩⟩
            · rintro ⟨e, he⟩
              cases he
            · refine ⟨{ loanRowOf now lid f total count with
                  status := LoanStatus.paid, updated_at := now }, ?_, rfl, rfl, rfl, rfl, ?_⟩
              · show (s.loans ++ [loanRowOf now lid f total count]).map _ = _
                rw [List.map_append, hg2, update_single lid _ _ rfl]
              · rw [if_pos h5]
          · rw [if_neg h5]
            refine ⟨?_, fun _ => ⟨rfl, ?_⟩⟩
            · rintro ⟨e, he⟩
              cases he
            · exact ⟨loanRowOf now lid f total count, rfl, rfl, rfl, rfl, rfl,
                by rw [if_neg h5]; rfl⟩

theorem computeAmounts_ok_length (mode : String) (t : ℚ) (c : ℕ)
    (raw : List (Option ℚ)) (amounts : List ℚ)
    (h : computeAmounts mode t c raw = .ok amounts) : amounts.length = c := by
  revert h
  simp only [computeAmounts, customAmounts]
  split_ifs with h0 h1 h2 h3
  · intro h
    cases h
  · intro h
    cases h
  · intro h
    cases h
  · intro h
    injection h with h
    subst h
    simp
    omega
  · intro h
    injection h with h
    subst h
    simp [equalAmounts]

theorem customAmounts_ok_nonneg (t : ℚ) (c : ℕ) (raw : List (Option ℚ))
    (amounts : List ℚ) (h : customAmounts t c raw = .ok amounts) :
    ∀ a ∈ amounts, 0 ≤ a := by
  revert h
  simp only [customAmounts]
  split_ifs with h1 h2 h3
  · intro h
    cases h
  · intro h
    cases h
  · intro h
    cases h
  · intro h
    injection h with h
    subst h
    intro a ha
    by_contra hneg
    exact h2 (Or.inr (List.any_eq_true.mpr ⟨a, ha, by simpa using hneg⟩))

theorem validateCreateLoan_ok_inv (f : CreateLoanForm) (total : ℚ)
    (count k : ℕ) (amounts : List ℚ)
    (h : validateCreateLoan f = .ok (total, count, k, amounts)) :
    0 < total ∧ 1 ≤ count ∧ k ≤ count ∧
    computeAmounts f.installment_mode total count f.custom_amounts = .ok amounts ∧
    count = ((f.installments_raw.getD none).getD 0).toNat ∧
    k = (f.already_paid.getD 0).toNat := by
  simp only [validateCreateLoan] at h
  split_ifs at h with h1 h2 h3 h4 h5 h6
  all_goals try exact absurd h (by simp)
  cases hca : computeAmounts f.installment_mode ((f.total_amount.getD none).getD 0)
      ((f.installments_raw.getD none).getD 0).toNat f.custom_amounts with
  | error e =>
      rw [hca] at h
      exact absurd h (by simp)
  | ok amounts2 =>
      rw [hca] at h
      simp only [Except.ok.injEq, Prod.mk.injEq] at h
      obtain ⟨ht, hc, hk, ha⟩ := h
      subst ht hc hk ha
      push_neg at h2 h3 h4 h5
      refine ⟨h2.2, ?_, ?_, hca, rfl, rfl⟩
      · omega
      · omega

theorem createLoan_error_store (perm : Bool) (now lid iidBase : ℕ)
    (fail : StoreFailures) (f : CreateLoanForm) (s : Store)
    (hfl : ∀ l ∈ s.loans, l.id ≠ lid)
    (hfi : ∀ j ∈ s.installments, j.loan_id ≠ lid) :
    (∃ e, (createLoan perm now lid iidBase fail f s).1 = .error e) →
      (createLoan perm now lid iidBase fail f s).2 = s := by
  simp only [createLoan]
  by_cases hp : perm = false
  · rw [if_pos hp]
    intro _
    rfl
  · rw [if_neg hp]
    cases hv : validateCreateLoan f with
    | error e =>
        intro _
        rfl
    | ok v =>
        obtain ⟨total, count, k, amounts⟩ := v
        exact (persistLoan_spec now lid iidBase fail f total count k amounts s hfl hfi).1

theorem createLoan_ok_spec (perm : Bool) (now lid iidBase : ℕ)
    (fail : StoreFailures) (f : CreateLoanForm) (s : Store)
    (hfl : ∀ l ∈ s.loans, l.id ≠ lid)
    (hfi : ∀ j ∈ s.installments, j.loan_id ≠ lid)
    (hok : (createLoan perm now lid iidBase fail f s).1 = .ok ()) :
    ∃ total count k amounts,
      validateCreateLoan f = .ok (total, count, k, amounts) ∧
      (createLoan perm now lid iidBase fail f s).2.installments =
        s.installments ++
          buildInstallments lid iidBase now k (f.start_date.getD ⟨0, 1, 1⟩) amounts ∧
      ∃ lr : Loan,
        (createLoan perm now lid iidBase fail f s).2.loans = s.loans ++ [lr] ∧
        lr.id = lid ∧ lr.employee_id = f.employee_id ∧ lr.total_amount = total ∧
        lr.number_of_installments = count ∧
        lr.status = (if count ≤ k then LoanStatus.paid else .active) := by
  revert hok
  simp only [createLoan]
  by_cases hp : perm = false
  · rw [if_pos hp]
    intro hok
    cases hok
  · rw [if_neg hp]
    cases hv : validateCreateLoan f with
    | error e =>
        intro hok
        cases hok
    | ok v =>
        obtain ⟨total, count, k, amounts⟩ := v
        intro hok
        exact ⟨total, count, k, amounts, rfl,
          (persistLoan_spec now lid iidBase fail f total count k amounts s hfl hfi).2 hok⟩

theorem equalAmounts_getD_lt (t : ℚ) (n i : ℕ) (hn : 1 ≤ n) (hi : i < n - 1) :
    (equalAmounts t n).getD i 0 = toFixed2 (t / n) := by
  rw [equalAmounts_eq_replicate_append t n hn, List.getD_eq_getElem?_getD,
    List.getElem?_append_left (by simp; omega), List.getElem?_replicate]
  simp [hi]

/-- Fixed equal-mode createLoan form: the given total, installment count and
already-paid count; all other fields valid and constant. -/
def equalExampleForm (total : ℚ) (n ap : ℤ) : CreateLoanForm :=
  { employee_id := "emp", total_amount := some (some total), currency := "USD",
    installments_raw := some (some n), start_date := some ⟨2024, 1, 15⟩,
    notes := none, already_paid := some ap, installment_mode := "equal",
    deduction_method := "salary", contract_url := none, has_contract_file := false,
    custom_amounts := [] }

-- ── Claim C6 ──────────────────────────────────────────────────────────────────

/-- C6: loan creation is atomic all-or-nothing.  For a fresh loan id, if
createLoan returns an error (permission, validation, loan-insert failure,
installment-insert failure or contract-upload failure) the store is exactly
the pre-state — every already-written row for the loan was deleted before
the error surfaced — and no row for the loan exists; on success the loan row
exists together with its complete installment batch, numbered contiguously
1..count per the loan row's installment count. -/
theorem create_loan_atomicity_spec (perm : Bool) (now lid iidBase : ℕ)
    (fail : StoreFailures) (f : CreateLoanForm) (s : Store)
    (hfl : ∀ l ∈ s.loans, l.id ≠ lid)
    (hfi : ∀ j ∈ s.installments, j.loan_id ≠ lid) :
    ((∃ e, (createLoan perm now lid iidBase fail f s).1 = .error e) →
      (createLoan perm now lid iidBase fail f s).2 = s ∧
      (∀ l ∈ (createLoan perm now lid iidBase fail f s).2.loans, l.id ≠ lid) ∧
      (∀ j ∈ (createLoan perm now lid iidBase fail f s).2.installments,
        j.loan_id ≠ lid)) ∧
    ((createLoan perm now lid iidBase fail f s).1 = .ok () →
      ∃ lr ∈ (createLoan perm now lid iidBase fail f s).2.loans, lr.id = lid ∧
        ((createLoan perm now lid iidBase fail f s).2.installments.filter
            (fun j => j.loan_id == lid)).map (fun j => j.installment_number) =
          (List.range lr.number_of_installments).map (· + 1)) := by
  constructor
  · intro he
    have h2 := createLoan_error_store perm now lid iidBase fail f s hfl hfi he
    rw [h2]
    exact ⟨rfl, hfl, hfi⟩
  · intro hok
    obtain ⟨total, count, k, amounts, hval, hinsts, lr, hloans, hid, _, _, hcount, _⟩ :=
      createLoan_ok_spec perm now lid iidBase fail f s hfl hfi hok
    obtain ⟨_, _, _, hca, _, _⟩ :=
      validateCreateLoan_ok_inv f total count k amounts hval
    have hlen := computeAmounts_ok_length f.installment_mode total count
      f.custom_amounts amounts hca
    refine ⟨lr, ?_, hid, ?_⟩
    · rw [hloans]
      exact List.mem_append_right _ (List.mem_cons_self _ _)
    · rw [hinsts, List.filter_append]
      have hold : s.installments.filter (fun j => j.loan_id == lid) = [] := by
        rw [List.filter_eq_nil_iff]
        intro j hj
        simpa using hfi j hj
      have hnew : (buildInstallments lid iidBase now k (f.start_date.getD ⟨0, 1, 1⟩)
          amounts).filter (fun j => j.loan_id == lid) =
          buildInstallments lid iidBase now k (f.start_date.getD ⟨0, 1, 1⟩) amounts := by
        rw [List.filter_eq_self]
        intro j hj
        simpa using buildInstallments_loan_id lid iidBase now k _ amounts j hj
      rw [hold, hnew, List.nil_append, buildInstallments_numbers, hlen, hcount]

/-- Witness for C6: a failing installment-batch insert on an empty store
leaves the store empty. -/
theorem create_loan_atomicity_spec_witness :
    (createLoan true 5 1 10 ⟨true, false, false⟩ (equalExampleForm 100 4 0)
      ⟨[], []⟩).2 = (⟨[], []⟩ : Store) :=
  ((create_loan_atomicity_spec true 5 1 10 ⟨true, false, false⟩
    (equalExampleForm 100 4 0) ⟨[], []⟩ (by simp) (by simp)).1
    ⟨.persistence, by
      norm_num +decide [createLoan, validateCreateLoan, computeAmounts, persistLoan,
        equalExampleForm, equalAmounts, toFixed2, round_eq, List.range_succ,
        show Int.toNat 4 = 4 from rfl]⟩).1

-- ── Claim C8 ──────────────────────────────────────────────────────────────────

/-- Counterexample to C8: accepted inputs can store non-positive amounts.
For total 0.01 split equally over 3 installments, createLoan succeeds and
stores the amounts [0, 0, 0.01] — two zero amounts; and the equal-mode last
installment for total 0.50 over 100 installments is -0.49, strictly
negative. -/
theorem installment_amount_positive_counterexample :
    (createLoan true 5 1 10 ⟨false, false, false⟩ (equalExampleForm (1 / 100) 3 0)
      ⟨[], []⟩).1 = .ok () ∧
    (createLoan true 5 1 10 ⟨false, false, false⟩ (equalExampleForm (1 / 100) 3 0)
      ⟨[], []⟩).2.installments.map (fun j => j.amount) = [0, 0, 1 / 100] ∧
    ¬ ((0 : ℚ) < 0) ∧
    (equalAmounts (1 / 2) 100).getD 99 0 = -49 / 100 ∧ (-49 / 100 : ℚ) < 0 := by
  refine ⟨?_, ?_, by norm_num, ?_, by norm_num⟩
  · norm_num +decide [createLoan, validateCreateLoan, computeAmounts, persistLoan,
      equalExampleForm, equalAmounts, buildInstallments, toFixed2, round_eq,
      List.range_succ, show Int.toNat 3 = 3 from rfl]
  · norm_num +decide [createLoan, validateCreateLoan, computeAmounts, persistLoan,
      equalExampleForm, equalAmounts, buildInstallments, toFixed2, round_eq,
      List.range_succ, show Int.toNat 3 = 3 from rfl]
  · rw [equalAmounts_eq_replicate_append (1 / 2) 100 (by norm_num),
      List.getD_eq_getElem?_getD, List.getElem?_append_right (by simp),
      List.length_replicate]
    norm_num [toFixed2, round_eq]

/-- C8 (amended): for every accepted createLoan input, every stored
installment amount of the new loan is non-negative in custom mode, and every
equal-mode amount other than the last installment (which absorbs the rounding
remainder and may be zero or negative for small totals) is non-negative;
strict positivity does not hold. -/
theorem installment_amounts_nonneg_amended (perm : Bool) (now lid iidBase : ℕ)
    (fail : StoreFailures) (f : CreateLoanForm) (s : Store)
    (hfl : ∀ l ∈ s.loans, l.id ≠ lid)
    (hfi : ∀ j ∈ s.installments, j.loan_id ≠ lid)
    (hok : (createLoan perm now lid iidBase fail f s).1 = .ok ()) :
    ∃ lr ∈ (createLoan perm now lid iidBase fail f s).2.loans, lr.id = lid ∧
      ∀ j ∈ (createLoan perm now lid iidBase fail f s).2.installments,
        j.loan_id = lid →
          (f.installment_mode = "custom" → 0 ≤ j.amount) ∧
          (j.installment_number < lr.number_of_installments → 0 ≤ j.amount) := by
  obtain ⟨total, count, k, amounts, hval, hinsts, lr, hloans, hid, _, _, hcount, _⟩ :=
    createLoan_ok_spec perm now lid iidBase fail f s hfl hfi hok
  obtain ⟨ht, hc1, _, hca, _, _⟩ :=
    validateCreateLoan_ok_inv f total count k amounts hval
  have hlen := computeAmounts_ok_length f.installment_mode total count
    f.custom_amounts amounts hca
  refine ⟨lr, ?_, hid, ?_⟩
  · rw [hloans]
    exact List.mem_append_right _ (List.mem_cons_self _ _)
  · intro j hj hjl
    rw [hinsts] at hj
    rcases List.mem_append.mp hj with hj | hj
    · exact absurd hjl (hfi j hj)
    · obtain ⟨h1, h2, hamt, _, _, _⟩ :=
        buildInstallments_fields lid iidBase now k _ amounts j hj
      have hmem : amounts.getD (j.installment_number - 1) 0 ∈ amounts := by
        have hlt : j.installment_number - 1 < amounts.length := by omega
        rw [List.getD_eq_getElem?_getD, List.getElem?_eq_getElem hlt, Option.getD_some]
        exact List.getElem_mem hlt
      by_cases hmode : f.installment_mode = "custom"
      · rw [computeAmounts, if_pos hmode] at hca
        have hnn := customAmounts_ok_nonneg total count f.custom_amounts amounts hca
        exact ⟨fun _ => hamt ▸ hnn _ hmem, fun _ => hamt ▸ hnn _ hmem⟩
      · rw [computeAmounts, if_neg hmode] at hca
        injection hca with hca
        refine ⟨fun hmode2 => absurd hmode2 hmode, fun hlast => ?_⟩
        rw [hamt, ← hca, equalAmounts_getD_lt total count _ hc1 (by omega)]
        exact toFixed2_nonneg (div_nonneg ht.le (Nat.cast_nonneg count))

/-- Witness for the amended C8: the equal-mode creation of total 100 over 4
installments on the empty store. -/
theorem installment_amounts_nonneg_amended_witness :
    ∃ lr ∈ (createLoan true 5 1 10 ⟨false, false, false⟩ (equalExampleForm 100 4 0)
        ⟨[], []⟩).2.loans, lr.id = 1 ∧
      ∀ j ∈ (createLoan true 5 1 10 ⟨false, false, false⟩ (equalExampleForm 100 4 0)
          ⟨[], []⟩).2.installments,
        j.loan_id = 1 →
          ((equalExampleForm 100 4 0).installment_mode = "custom" → 0 ≤ j.amount) ∧
          (j.installment_number < lr.number_of_installments → 0 ≤ j.amount) :=
  installment_amounts_nonneg_amended true 5 1 10 ⟨false, false, false⟩
    (equalExampleForm 100 4 0) ⟨[], []⟩ (by simp) (by simp)
    (by
      norm_num +decide [createLoan, validateCreateLoan, computeAmounts, persistLoan,
        equalExampleForm, equalAmounts, toFixed2, round_eq, List.range_succ,
        show Int.toNat 4 = 4 from rfl])

-- ── Claim C9 ──────────────────────────────────────────────────────────────────

/-- C9: for every successful createLoan with already-paid count k, the new
loan's installments are numbered contiguously 1..count, installments 1..k are
paid with source manual and a paid-now timestamp, installments k+1..count are
pending with no timestamp or source, and when k = count the loan's status is
paid immediately after creation; concretely, for total 100, count 4,
already_paid 4 the loan is created paid with all 4 installments paid from
source manual. -/
theorem already_paid_creation_spec (perm : Bool) (now lid iidBase : ℕ)
    (fail : StoreFailures) (f : CreateLoanForm) (s : Store)
    (hfl : ∀ l ∈ s.loans, l.id ≠ lid)
    (hfi : ∀ j ∈ s.installments, j.loan_id ≠ lid)
    (hok : (createLoan perm now lid iidBase fail f s).1 = .ok ()) :
    (((createLoan perm now lid iidBase fail f s).2.installments.filter
        (fun j => j.loan_id == lid)).map (fun j => j.installment_number) =
      (List.range ((f.installments_raw.getD none).getD 0).toNat).map (· + 1)) ∧
    (∀ j ∈ (createLoan perm now lid iidBase fail f s).2.installments,
      j.loan_id = lid →
      (j.installment_number ≤ (f.already_paid.getD 0).toNat →
        j.status = .paid ∧ j.paid_at = some now ∧ j.payment_source = some .manual) ∧
      ((f.already_paid.getD 0).toNat < j.installment_number →
        j.status = .pending ∧ j.paid_at = none ∧ j.payment_source = none)) ∧
    ((f.already_paid.getD 0).toNat = ((f.installments_raw.getD none).getD 0).toNat →
      ∀ l ∈ (createLoan perm now lid iidBase fail f s).2.loans, l.id = lid →
        l.status = .paid) ∧
    (createLoan true 5 1 10 ⟨false, false, false⟩ (equalExampleForm 100 4 4)
      ⟨[], []⟩).2.loans.map Loan.status = [.paid] ∧
    (createLoan true 5 1 10 ⟨false, false, false⟩ (equalExampleForm 100 4 4)
      ⟨[], []⟩).2.installments.map
        (fun j => (j.installment_number, j.status, j.payment_source)) =
      [(1, .paid, some .manual), (2, .paid, some .manual),
       (3, .paid, some .manual), (4, .paid, some .manual)] := by
  obtain ⟨total, count, k, amounts, hval, hinsts, lr, hloans, hid, _, _, hcount, hstat⟩ :=
    createLoan_ok_spec perm now lid iidBase fail f s hfl hfi hok
  obtain ⟨_, _, hkc, hca, hcnteq, hkeq⟩ :=
    validateCreateLoan_ok_inv f total count k amounts hval
  have hlen := computeAmounts_ok_length f.installment_mode total count
    f.custom_amounts amounts hca
  refine ⟨?_, ?_, ?_, ?_, ?_⟩
  · rw [hinsts, List.filter_append]
    have hold : s.installments.filter (fun j => j.loan_id == lid) = [] := by
      rw [List.filter_eq_nil_iff]
      intro j hj
      simpa using hfi j hj
    have hnew : (buildInstallments lid iidBase now k (f.start_date.getD ⟨0, 1, 1⟩)
        amounts).filter (fun j => j.loan_id == lid) =
        buildInstallments lid iidBase now k (f.start_date.getD ⟨0, 1, 1⟩) amounts := by
      rw [List.filter_eq_self]
      intro j hj
      simpa using buildInstallments_loan_id lid iidBase now k _ amounts j hj
    rw [hold, hnew, List.nil_append, buildInstallments_numbers, hlen, ← hcnteq]
  · intro j hj hjl
    rw [hinsts] at hj
    rcases List.mem_append.mp hj with hj | hj
    · exact absurd hjl (hfi j hj)
    · obtain ⟨_, _, _, _, hpaid, hpend⟩ :=
        buildInstallments_fields lid iidBase now k _ amounts j hj
      rw [← hkeq]
      exact ⟨hpaid, hpend⟩
  · intro hk l hl hlid
    rw [hloans] at hl
    rcases List.mem_append.mp hl with hl | hl
    · exact absurd hlid (hfl l hl)
    · rcases List.mem_singleton.mp hl with rfl
      rw [hstat, if_pos (by omega)]
  · norm_num +decide [createLoan, validateCreateLoan, computeAmounts, persistLoan,
      updateLoanStatus, equalExampleForm, equalAmounts, buildInstallments, toFixed2,
      round_eq, List.range_succ, show Int.toNat 4 = 4 from rfl]
  · norm_num +decide [createLoan, validateCreateLoan, computeAmounts, persistLoan,
      updateLoanStatus, equalExampleForm, equalAmounts, buildInstallments, toFixed2,
      round_eq, List.range_succ, show Int.toNat 4 = 4 from rfl]

/-- Witness for C9: the concrete fully-already-paid creation, projected to the
contiguous numbering of the new loan's installments. -/
theorem already_paid_creation_spec_witness :
    ((createLoan true 5 1 10 ⟨false, false, false⟩ (equalExampleForm 100 4 4)
        ⟨[], []⟩).2.installments.filter (fun j => j.loan_id == 1)).map
        (fun j => j.installment_number) =
      (List.range
        ((((equalExampleForm 100 4 4).installments_raw.getD none).getD 0).toNat)).map
        (· + 1) :=
  (already_paid_creation_spec true 5 1 10 ⟨false, false, false⟩
    (equalExampleForm 100 4 4) ⟨[], []⟩ (by simp) (by simp)
    (by
      norm_num +decide [createLoan, validateCreateLoan, computeAmounts, persistLoan,
        updateLoanStatus, equalExampleForm, equalAmounts, toFixed2, round_eq,
        List.range_succ, show Int.toNat 4 = 4 from rfl])).1

end Payroll
